import Mathlib

/-!
# EcoQuest progression engine — verification of the specification

Shallow embedding of the progression engine of `src/serviceWorkerRegistration.js`
(the `EcoQuestApp` component): the state slices owned by the engine
(points, level, hotspots, monsters, missions, badges, events, notifications),
the operations `captureMonster`, `reportIllegalDumping`, `joinEvent`,
`inviteFriend`, the two reactive effects (level recomputation at lines 394-418
and badge unlocking at lines 420-450), and the derived computations
`calculateEnvironmentScore`, `calculateDistance` and `isMonsterNearby`.

Modelling conventions:
* JavaScript numbers holding points, progress, counts are natural numbers
  (every update in the source adds a non-negative amount).
* A notification is modelled by its kind only; the source additionally stores
  an id, a timestamp and a message string, none of which feed back into the
  engine's control flow.
* React re-runs the two `useEffect` hooks after every state change until no
  further change occurs; this is modelled by `settle`, which alternates the
  two effects (in their source order) until a fixpoint, and is applied after
  every operation.  The fixpoint is reached in at most `lockedCount + 1`
  rounds, which is proved below (`settleAux_fix`).
* The geometric proximity test of `reportIllegalDumping`
  (`calculateDistance(spot, location) < 0.1`, floating point trigonometry)
  is abstracted as a boolean oracle `near : Hotspot → Bool` supplied with the
  operation; every theorem about reporting quantifies over this oracle.
  The distance function itself is modelled exactly, over the reals, for the
  claims that are about it (`isMonsterNearby`).
-/

namespace EcoQuest

/-- Hotspot severity (`level` field of a hotspot in the source). -/
inductive Severity where
  | low
  | medium
  | high
  deriving DecidableEq

/-- The kind of a notification appended by the engine.  `seed` stands for the
four notifications present in the initial data (lines 272-277). -/
inductive NotifKind where
  | seed
  | capture
  | missionComplete
  | badgeUnlock
  | levelUp
  | report
  | joinEvent
  | invite
  deriving DecidableEq

/-- A dumping hotspot (lines 254-259).  Name, timestamp and coordinates do not
feed back into the engine's control flow; the coordinate test is abstracted by
the `near` oracle of a report operation. -/
structure Hotspot where
  id : Nat
  level : Severity
  reportCount : Nat
  deriving DecidableEq

/-- A litter monster (lines 262-269).  `plastic` models
`monster.type === '플라스틱'`, the only type test the engine performs. -/
structure Monster where
  id : Nat
  plastic : Bool
  points : Nat
  captured : Bool
  deriving DecidableEq

/-- A mission (lines 280-285). -/
structure Mission where
  id : Nat
  reward : Nat
  completed : Bool
  progress : Nat
  total : Nat
  deriving DecidableEq

/-- A badge (lines 288-294). -/
structure Badge where
  id : Nat
  progress : Nat
  total : Nat
  unlocked : Bool
  deriving DecidableEq

/-- A community event (lines 304-338); the engine only reads the id and
mutates the participant count. -/
structure EventItem where
  id : Nat
  participants : Nat
  deriving DecidableEq

/-- The state owned by the progression engine. -/
structure EngineState where
  points : Nat
  level : Nat
  hotspots : List Hotspot
  monsters : List Monster
  missions : List Mission
  badges : List Badge
  events : List EventItem
  notifications : List NotifKind
  deriving DecidableEq

/-- Severity recomputed from a report count: the `if`-chain at lines 590-593
(`>10 → high`, `>5 → medium`, else `low`). -/
def severityOf (n : Nat) : Severity :=
  if n > 10 then .high else if n > 5 then .medium else .low

/-- The in-place update applied to the matched mission inside the
mission-update block (`newProgress`/`completed`, e.g. lines 489-511). -/
def updateMission (m : Mission) : Mission :=
  { m with progress := m.progress + 1, completed := decide (m.progress + 1 ≥ m.total) }

/-- The mission-update block that the source repeats verbatim in
`captureMonster` (lines 483-518, mission 1), `reportIllegalDumping`
(lines 621-654, mission 2), `joinEvent` (lines 699-732, mission 4) and
`inviteFriend` (lines 755-787, mission 3): find the mission; if it exists and
is not completed, map over the missions incrementing the matching ones, and
for each matching mission that crosses its total while not yet completed,
grant its reward and prepend one completion notification. -/
def missionUpdate (mid : Nat) (s : EngineState) : EngineState :=
  match s.missions.find? (fun m => m.id == mid) with
  | none => s
  | some m0 =>
    if m0.completed then s
    else
      let fired := s.missions.filter
        (fun m => m.id == mid && (decide (m.progress + 1 ≥ m.total) && !m.completed))
      { s with
        missions := s.missions.map (fun m => if m.id == mid then updateMission m else m),
        points := s.points + (fired.map (fun m => m.reward)).sum,
        notifications := List.replicate fired.length .missionComplete ++ s.notifications }

/-- Increment the progress of the badge with the given id by one — the
unguarded badge updates at lines 476-479 (badge 1), 657-660 (badge 2) and
735-738 (badge 4). -/
def badgeIncrement (bid : Nat) (s : EngineState) : EngineState :=
  { s with badges :=
      s.badges.map (fun b => if b.id == bid then { b with progress := b.progress + 1 } else b) }

/-- `captureMonster` (lines 452-525): mark the monster captured; if it exists
(`monsters.find`, on the pre-update list), add its points, prepend a capture
notification, and when its type is plastic increment badge 1 and run the
mission-update block for mission 1.  Note the source performs no check of the
`captured` flag before granting points. -/
def captureMonster (i : Nat) (s : EngineState) : EngineState :=
  let monstersUpd := s.monsters.map
    (fun m => if m.id == i then { m with captured := true } else m)
  match s.monsters.find? (fun m => m.id == i) with
  | none => { s with monsters := monstersUpd }
  | some cm =>
    let s1 : EngineState :=
      { s with monsters := monstersUpd,
               points := s.points + cm.points,
               notifications := .capture :: s.notifications }
    let s2 := if cm.plastic then badgeIncrement 1 s1 else s1
    if cm.plastic then missionUpdate 1 s2 else s2

/-- `reportIllegalDumping` (lines 578-676): update or create a hotspot (the
proximity test `calculateDistance(spot, location) < 0.1` is the `near`
oracle; `newId` models `Date.now()` for a created hotspot), run the
mission-update block for mission 2, increment badge 2 unconditionally, award
50 points, prepend a report notification, and return `true`. -/
def reportIllegalDumping (near : Hotspot → Bool) (newId : Nat) (s : EngineState) :
    EngineState × Bool :=
  let s1 : EngineState :=
    match s.hotspots.find? near with
    | some ex =>
      { s with hotspots := s.hotspots.map (fun spot =>
          if spot.id == ex.id then
            { spot with reportCount := spot.reportCount + 1,
                        level := severityOf (spot.reportCount + 1) }
          else spot) }
    | none =>
      { s with hotspots := s.hotspots ++ [{ id := newId, level := .low, reportCount := 1 }] }
  let s2 := missionUpdate 2 s1
  let s3 := badgeIncrement 2 s2
  let s4 : EngineState := { s3 with points := s3.points + 50 }
  ({ s4 with notifications := .report :: s4.notifications }, true)

/-- `joinEvent` (lines 679-740): if the event exists, increment its
participant count, prepend a join notification, run the mission-update block
for mission 4 and increment badge 4. -/
def joinEvent (i : Nat) (s : EngineState) : EngineState :=
  match s.events.find? (fun e => e.id == i) with
  | none => s
  | some _ =>
    let s1 : EngineState :=
      { s with events := s.events.map (fun e => if e.id == i then { e with participants := e.participants + 1 } else e),
               notifications := .joinEvent :: s.notifications }
    let s2 := missionUpdate 4 s1
    badgeIncrement 4 s2

/-- `inviteFriend` (lines 753-800): run the mission-update block for mission 3,
prepend an invite notification, return `true`. -/
def inviteFriend (s : EngineState) : EngineState × Bool :=
  let s1 := missionUpdate 3 s
  ({ s1 with notifications := .invite :: s1.notifications }, true)

/-- The level `useEffect` (lines 394-418): recompute
`newLevel = floor(points/100)+1`; when it differs, store it, and when it
increased additionally prepend a level-up notification and overwrite the
progress of badge 5 ("eco hero") with the new level. -/
def levelEffect (s : EngineState) : EngineState :=
  let newLevel := s.points / 100 + 1
  if newLevel ≠ s.level then
    if newLevel > s.level then
      { s with level := newLevel,
               notifications := .levelUp :: s.notifications,
               badges := s.badges.map (fun b => if b.id == 5 then { b with progress := newLevel } else b) }
    else
      { s with level := newLevel }
  else s

/-- A badge that the badge `useEffect` would unlock
(`badge.progress >= badge.total && !badge.unlocked`, lines 422-424). -/
def unlockable (b : Badge) : Bool :=
  decide (b.progress ≥ b.total) && !b.unlocked

/-- The badge `useEffect` (lines 420-450): when some badge is unlockable, map
over the badges unlocking each unlockable one, and for each prepend one
badge notification and add the flat 100-point bonus. -/
def badgeEffect (s : EngineState) : EngineState :=
  if s.badges.any unlockable then
    let newly := (s.badges.filter unlockable).length
    { s with
      badges := s.badges.map (fun b => if unlockable b then { b with unlocked := true } else b),
      points := s.points + 100 * newly,
      notifications := List.replicate newly .badgeUnlock ++ s.notifications }
  else s

/-- Number of still-locked badges; strictly decreases on every round of the
badge effect that changes anything, bounding the effect-settling loop. -/
def lockedCount (s : EngineState) : Nat :=
  s.badges.countP (fun b => !b.unlocked)

/-- Run the two effects, in their source order, for at most `n` rounds or
until neither changes the state. -/
def settleAux : Nat → EngineState → EngineState
  | 0, s => s
  | n + 1, s =>
    let s1 := levelEffect s
    let s2 := badgeEffect s1
    if s2 = s1 then s1 else settleAux n s2

/-- Run the two reactive effects to quiescence (React re-runs them after every
state change until nothing changes; `lockedCount + 1` rounds always suffice,
see `settleAux_fix`). -/
def settle (s : EngineState) : EngineState :=
  settleAux (lockedCount s + 1) s

/-- One externally triggered engine operation.  A report carries the proximity
oracle for the current coordinates and the fresh id used for a new hotspot. -/
inductive Op where
  | capture (i : Nat)
  | reportDump (near : Hotspot → Bool) (newId : Nat)
  | joinEv (i : Nat)
  | invite

/-- The direct state change of one operation. -/
def rawStep : Op → EngineState → EngineState
  | .capture i, s => captureMonster i s
  | .reportDump near newId, s => (reportIllegalDumping near newId s).1
  | .joinEv i, s => joinEvent i s
  | .invite, s => (inviteFriend s).1

/-- One engine operation followed by the reactive effects settling. -/
def step (op : Op) (s : EngineState) : EngineState :=
  settle (rawStep op s)

/-- Seed hotspots (lines 254-259). -/
def seedHotspots : List Hotspot :=
  [⟨1, .high, 12⟩, ⟨2, .medium, 8⟩, ⟨3, .low, 3⟩, ⟨4, .medium, 7⟩]

/-- Seed monsters (lines 262-269); monsters 1, 2 and 5 are plastic. -/
def seedMonsters : List Monster :=
  [⟨1, true, 50, false⟩, ⟨2, true, 70, false⟩, ⟨3, false, 30, true⟩,
   ⟨4, false, 60, false⟩, ⟨5, true, 45, false⟩, ⟨6, false, 80, false⟩]

/-- Seed missions (lines 280-285). -/
def seedMissions : List Mission :=
  [⟨1, 150, false, 1, 3⟩, ⟨2, 100, false, 0, 1⟩, ⟨3, 300, false, 1, 3⟩, ⟨4, 250, false, 0, 1⟩]

/-- Seed badges (lines 288-294); badge 5 seeds its progress with the initial
level `floor(750/100)+1 = 8`. -/
def seedBadges : List Badge :=
  [⟨1, 4, 10, false⟩, ⟨2, 3, 5, false⟩, ⟨3, 12, 20, false⟩, ⟨4, 7, 10, false⟩, ⟨5, 8, 10, false⟩]

/-- Seed events (lines 304-338). -/
def seedEvents : List EventItem :=
  [⟨1, 23⟩, ⟨2, 15⟩, ⟨3, 31⟩]

/-- The initial engine state: 750 points (line 240), level
`floor(750/100)+1` (line 242), and the seed collections. -/
def seedState : EngineState :=
  { points := 750, level := 750 / 100 + 1,
    hotspots := seedHotspots, monsters := seedMonsters, missions := seedMissions,
    badges := seedBadges, events := seedEvents,
    notifications := [.seed, .seed, .seed, .seed] }

/-- `calculateEnvironmentScore` (lines 559-575), with the floating-point
arithmetic of the source idealised over the rationals:
`round((100 − severity×5)×0.6 + captureRate×100×0.4)`. -/
def calculateEnvironmentScore (s : EngineState) : ℤ :=
  let hotspotSeverity : ℚ :=
    s.hotspots.foldl
      (fun total spot =>
        if spot.level = .high then total + 3
        else if spot.level = .medium then total + 2
        else total + 1) 0
  let capturedMonsters : ℕ := (s.monsters.filter (fun m => m.captured)).length
  let totalMonsters : ℕ := s.monsters.length
  let captureRate : ℚ :=
    if totalMonsters > 0 then (capturedMonsters : ℚ) / (totalMonsters : ℚ) else 0
  round ((100 - hotspotSeverity * 5) * 0.6 + captureRate * 100 * 0.4)

/-- A geographic coordinate pair, as delivered by the geolocation provider. -/
structure Coord where
  lat : ℝ
  lng : ℝ

/-- Model of JavaScript's `Math.atan2(y, x)` over the reals (the standard
two-argument arctangent; `Math.atan2(0, 0) = 0`). -/
noncomputable def atan2 (y x : ℝ) : ℝ :=
  if 0 < x then Real.arctan (y / x)
  else if x < 0 then
    (if 0 ≤ y then Real.arctan (y / x) + Real.pi else Real.arctan (y / x) - Real.pi)
  else
    (if 0 < y then Real.pi / 2 else if y < 0 then -(Real.pi / 2) else 0)

/-- Degree-to-radian conversion (line 213). -/
noncomputable def deg2rad (d : ℝ) : ℝ :=
  d * (Real.pi / 180)

/-- The intermediate value `a` of `calculateDistance` (lines 217-220). -/
noncomputable def havA (lat1 lng1 lat2 lng2 : ℝ) : ℝ :=
  Real.sin (deg2rad (lat2 - lat1) / 2) * Real.sin (deg2rad (lat2 - lat1) / 2) +
    Real.cos (deg2rad lat1) * Real.cos (deg2rad lat2) *
      Real.sin (deg2rad (lng2 - lng1) / 2) * Real.sin (deg2rad (lng2 - lng1) / 2)

/-- `calculateDistance` (lines 212-224), the haversine-formula distance with
Earth radius `R = 6371` km, floating point idealised over the reals. -/
noncomputable def calculateDistance (lat1 lng1 lat2 lng2 : ℝ) : ℝ :=
  let R : ℝ := 6371
  let a := havA lat1 lng1 lat2 lng2
  let c := 2 * atan2 (Real.sqrt a) (Real.sqrt (1 - a))
  R * c

/-- The textbook haversine great-circle distance with Earth radius 6371 km,
written as the spec states it (`2 R arcsin √a`); proved below to coincide
with the source's `atan2` formulation. -/
noncomputable def haversineDistance (lat1 lng1 lat2 lng2 : ℝ) : ℝ :=
  2 * 6371 * Real.arcsin (Real.sqrt
    (Real.sin ((deg2rad lat2 - deg2rad lat1) / 2) ^ 2 +
      Real.cos (deg2rad lat1) * Real.cos (deg2rad lat2) *
        Real.sin ((deg2rad lng2 - deg2rad lng1) / 2) ^ 2))

/-- `isMonsterNearby` (lines 528-537): false while the user location is
unresolved, otherwise true exactly when the distance is at most 0.05 km. -/
def isMonsterNearby (userLocation : Option Coord) (monsterLat monsterLng : ℝ) : Prop :=
  match userLocation with
  | none => False
  | some u => calculateDistance u.lat u.lng monsterLat monsterLng ≤ 0.05

/-! ## Concrete states used by the scenario and witness theorems -/

/-- Proximity oracle of a report location with no hotspot within 0.1 km. -/
def neverNear : Hotspot → Bool := fun _ => false

/-- Proximity oracle of a report location within 0.1 km of every hotspot. -/
def alwaysNear : Hotspot → Bool := fun _ => true

/-- A state with a single uncaptured non-plastic monster worth 50 points. -/
def oneMonsterState : EngineState :=
  { points := 0, level := 1, hotspots := [], monsters := [⟨1, false, 50, false⟩],
    missions := [], badges := [], events := [], notifications := [] }

/-- A state with a single uncaptured plastic monster worth 50 points and the
plastic mission (id 1) one capture away from its total. -/
def plasticCrossState : EngineState :=
  { points := 0, level := 1, hotspots := [], monsters := [⟨1, true, 50, false⟩],
    missions := [⟨1, 150, false, 2, 3⟩], badges := [⟨1, 4, 10, false⟩], events := [],
    notifications := [] }

/-- A state with empty collections, on which both effects are quiescent. -/
def settledEmptyState : EngineState :=
  { points := 0, level := 1, hotspots := [], monsters := [],
    missions := [], badges := [], events := [], notifications := [] }

/-- 99 points and a 1-point monster: capturing crosses the 100-point line. -/
def levelUpState : EngineState :=
  { points := 99, level := 1, hotspots := [], monsters := [⟨1, false, 1, false⟩],
    missions := [], badges := [⟨5, 5, 10, false⟩], events := [], notifications := [] }

/-- The state `levelUpState` reaches after capturing monster 1. -/
def levelUpExpected : EngineState :=
  { points := 100, level := 2, hotspots := [], monsters := [⟨1, false, 1, true⟩],
    missions := [], badges := [⟨5, 2, 10, false⟩], events := [],
    notifications := [.levelUp, .capture] }

/-- 100 points not yet reflected in the level (as right after a points write). -/
def preLevelUpState : EngineState :=
  { points := 100, level := 1, hotspots := [], monsters := [],
    missions := [], badges := [⟨5, 1, 10, false⟩], events := [], notifications := [] }

/-- A state whose report mission (id 2) is already completed. -/
def completedMissionState : EngineState :=
  { points := 0, level := 1, hotspots := [], monsters := [],
    missions := [⟨2, 100, true, 1, 1⟩], badges := [], events := [], notifications := [] }

/-- A state whose report mission (id 2) is one report away from its total. -/
def reportMissionState : EngineState :=
  { points := 0, level := 1, hotspots := [], monsters := [],
    missions := [⟨2, 100, false, 0, 1⟩], badges := [], events := [], notifications := [] }

/-- A state whose plastic mission (id 1) is one capture away from its total. -/
def crossingState : EngineState :=
  { points := 0, level := 1, hotspots := [], monsters := [],
    missions := [⟨1, 150, false, 2, 3⟩], badges := [], events := [], notifications := [] }

/-- A state with one hotspot at report count 10 and severity medium. -/
def tenReportState : EngineState :=
  { points := 0, level := 1, hotspots := [⟨7, .medium, 10⟩], monsters := [],
    missions := [], badges := [], events := [], notifications := [] }

/-- A state whose guardian badge (id 2) is already unlocked at its total. -/
def overBadgeState : EngineState :=
  { points := 0, level := 1, hotspots := [], monsters := [],
    missions := [], badges := [⟨2, 5, 5, true⟩], events := [], notifications := [] }

/-- Twelve high-severity hotspots and no monsters: the environment score goes
negative. -/
def negScoreState : EngineState :=
  { points := 0, level := 1,
    hotspots := [⟨1, .high, 12⟩, ⟨2, .high, 12⟩, ⟨3, .high, 12⟩, ⟨4, .high, 12⟩,
      ⟨5, .high, 12⟩, ⟨6, .high, 12⟩, ⟨7, .high, 12⟩, ⟨8, .high, 12⟩,
      ⟨9, .high, 12⟩, ⟨10, .high, 12⟩, ⟨11, .high, 12⟩, ⟨12, .high, 12⟩],
    monsters := [], missions := [], badges := [], events := [], notifications := [] }

/-! ## Invariants and quiescence predicates -/

/-- A state on which neither reactive effect fires. -/
def Settled (s : EngineState) : Prop :=
  levelEffect s = s ∧ badgeEffect s = s

instance (s : EngineState) : Decidable (Settled s) := by
  unfold Settled
  infer_instance

/-- The mission invariant: ids are pairwise distinct (true of the seed data
and preserved, since missions are only ever mapped over), `completed` agrees
with `progress ≥ total`, and progress never exceeds total. -/
def MissionInv (s : EngineState) : Prop :=
  (s.missions.map (fun m => m.id)).Nodup ∧
    ∀ m ∈ s.missions, m.completed = decide (m.progress ≥ m.total) ∧ m.progress ≤ m.total

instance : DecidablePred MissionInv := fun s => by
  unfold MissionInv
  infer_instance

/-- The hotspot invariant: severity is the pure function `severityOf` of the
report count. -/
def HotspotInv (s : EngineState) : Prop :=
  ∀ h ∈ s.hotspots, h.level = severityOf h.reportCount

instance : DecidablePred HotspotInv := fun s => by
  unfold HotspotInv
  infer_instance

/-! ## Helper lemmas about the two reactive effects and `settle` -/

theorem map_id_of {α : Type} {l : List α} {f : α → α} (h : ∀ a ∈ l, f a = a) :
    l.map f = l :=
  (List.map_congr_left h).trans (List.map_id l)

theorem levelEffect_points (s : EngineState) : (levelEffect s).points = s.points := by
  simp only [levelEffect]
  split
  · split <;> rfl
  · rfl

theorem levelEffect_frame (s : EngineState) :
    (levelEffect s).hotspots = s.hotspots ∧ (levelEffect s).monsters = s.monsters ∧
      (levelEffect s).missions = s.missions ∧ (levelEffect s).events = s.events := by
  simp only [levelEffect]
  split
  · split <;> exact ⟨rfl, rfl, rfl, rfl⟩
  · exact ⟨rfl, rfl, rfl, rfl⟩

theorem levelEffect_level (s : EngineState) :
    (levelEffect s).level = s.points / 100 + 1 := by
  simp only [levelEffect]
  split
  · split <;> rfl
  · rename_i h
    omega

theorem levelEffect_of_fix {s : EngineState} (h : s.level = s.points / 100 + 1) :
    levelEffect s = s := by
  simp only [levelEffect]
  rw [if_neg (by omega)]

theorem lockedCount_levelEffect (s : EngineState) :
    lockedCount (levelEffect s) = lockedCount s := by
  simp only [levelEffect]
  split
  · split
    · simp only [lockedCount, List.countP_map]
      apply List.countP_congr
      intro b _
      by_cases h5 : b.id = 5 <;> simp [h5]
    · rfl
  · rfl

theorem badgeEffect_eq (s : EngineState) :
    badgeEffect s =
      { s with
        badges := s.badges.map (fun b => if unlockable b then { b with unlocked := true } else b),
        points := s.points + 100 * s.badges.countP unlockable,
        notifications :=
          List.replicate (s.badges.countP unlockable) .badgeUnlock ++ s.notifications } := by
  simp only [badgeEffect]
  by_cases h : s.badges.any unlockable
  · simp [h, List.countP_eq_length_filter]
  · have hall : ∀ b ∈ s.badges, ¬ unlockable b = true := by
      rw [← List.any_eq_false]
      exact Bool.not_eq_true _ ▸ (by simpa using h)
    have h0 : s.badges.countP unlockable = 0 := List.countP_eq_zero.mpr hall
    have hmap : s.badges.map (fun b => if unlockable b then { b with unlocked := true } else b) =
        s.badges :=
      map_id_of (fun b hb => by simp [hall b hb])
    simp only [h, if_false, Bool.false_eq_true]
    rw [h0, hmap]
    cases s
    simp

theorem badgeEffect_of_countP {s : EngineState} (h : s.badges.countP unlockable = 0) :
    badgeEffect s = s := by
  have hall := List.countP_eq_zero.mp h
  simp only [badgeEffect]
  rw [if_neg]
  simp only [List.any_eq_true, not_exists]
  intro b
  intro hb
  exact hall b hb.1 hb.2

theorem lockedCount_unlock_aux (l : List Badge) :
    (l.map fun b => if unlockable b then { b with unlocked := true } else b).countP
        (fun b => !b.unlocked) + l.countP unlockable =
      l.countP (fun b => !b.unlocked) := by
  rw [List.countP_map]
  induction l with
  | nil => simp
  | cons b l ih =>
    by_cases hb : unlockable b = true
    · have hlock : b.unlocked = false := by
        have := hb
        simp only [unlockable, Bool.and_eq_true, Bool.not_eq_true'] at this
        exact this.2
      simp [List.countP_cons, Function.comp, hb, hlock] at ih ⊢
      omega
    · have hb' : unlockable b = false := eq_false_of_ne_true hb
      simp [List.countP_cons, Function.comp, hb'] at ih ⊢
      omega

theorem lockedCount_badgeEffect (s : EngineState) :
    lockedCount (badgeEffect s) + s.badges.countP unlockable = lockedCount s := by
  rw [badgeEffect_eq]
  exact lockedCount_unlock_aux s.badges

theorem badgeEffect_frame (s : EngineState) :
    (badgeEffect s).hotspots = s.hotspots ∧ (badgeEffect s).monsters = s.monsters ∧
      (badgeEffect s).missions = s.missions ∧ (badgeEffect s).events = s.events ∧
      (badgeEffect s).level = s.level ∧ s.points ≤ (badgeEffect s).points := by
  rw [badgeEffect_eq]
  exact ⟨rfl, rfl, rfl, rfl, rfl, Nat.le_add_right _ _⟩

theorem badgeEffect_idem (s : EngineState) :
    badgeEffect (badgeEffect s) = badgeEffect s := by
  apply badgeEffect_of_countP
  rw [badgeEffect_eq]
  show ((s.badges.map fun b => if unlockable b then { b with unlocked := true } else b).countP
    unlockable) = 0
  rw [List.countP_eq_zero]
  intro b hb
  rw [List.mem_map] at hb
  obtain ⟨a, _, rfl⟩ := hb
  by_cases ha : unlockable a = true
  · rw [if_pos ha]
    simp [unlockable]
  · rw [if_neg ha]
    exact ha

theorem settleAux_fix :
    ∀ (n : Nat) (s : EngineState), lockedCount s < n →
      (settleAux n s).level = (settleAux n s).points / 100 + 1 ∧
        badgeEffect (settleAux n s) = settleAux n s := by
  intro n
  induction n with
  | zero => exact fun s h => absurd h (Nat.not_lt_zero _)
  | succ n ih =>
    intro s h
    simp only [settleAux]
    split
    · rename_i heq
      refine ⟨?_, heq⟩
      rw [levelEffect_level, levelEffect_points]
    · rename_i hne
      apply ih
      have h1 : lockedCount (levelEffect s) = lockedCount s := lockedCount_levelEffect s
      have h2 := lockedCount_badgeEffect (levelEffect s)
      have h3 : (levelEffect s).badges.countP unlockable ≠ 0 := by
        intro h0
        exact hne (badgeEffect_of_countP h0)
      omega

theorem settle_fix (s : EngineState) :
    (settle s).level = (settle s).points / 100 + 1 ∧
      badgeEffect (settle s) = settle s :=
  settleAux_fix _ s (Nat.lt_succ_self _)

theorem settleAux_frame :
    ∀ (n : Nat) (s : EngineState),
      (settleAux n s).hotspots = s.hotspots ∧ (settleAux n s).monsters = s.monsters ∧
        (settleAux n s).missions = s.missions ∧ (settleAux n s).events = s.events ∧
        s.points ≤ (settleAux n s).points := by
  intro n
  induction n with
  | zero => exact fun s => ⟨rfl, rfl, rfl, rfl, Nat.le_refl _⟩
  | succ n ih =>
    intro s
    simp only [settleAux]
    split
    · exact ⟨(levelEffect_frame s).1, (levelEffect_frame s).2.1, (levelEffect_frame s).2.2.1,
        (levelEffect_frame s).2.2.2, (levelEffect_points s).symm.le⟩
    · obtain ⟨ih1, ih2, ih3, ih4, ih5⟩ := ih (badgeEffect (levelEffect s))
      obtain ⟨bf1, bf2, bf3, bf4, _, bf6⟩ := badgeEffect_frame (levelEffect s)
      obtain ⟨lf1, lf2, lf3, lf4⟩ := levelEffect_frame s
      refine ⟨?_, ?_, ?_, ?_, ?_⟩
      · rw [ih1, bf1, lf1]
      · rw [ih2, bf2, lf2]
      · rw [ih3, bf3, lf3]
      · rw [ih4, bf4, lf4]
      · calc s.points = (levelEffect s).points := (levelEffect_points s).symm
          _ ≤ (badgeEffect (levelEffect s)).points := bf6
          _ ≤ _ := ih5

theorem settle_frame (s : EngineState) :
    (settle s).hotspots = s.hotspots ∧ (settle s).monsters = s.monsters ∧
      (settle s).missions = s.missions ∧ (settle s).events = s.events ∧
      s.points ≤ (settle s).points :=
  settleAux_frame _ s

theorem settle_of_settled {s : EngineState} (h : Settled s) : settle s = s := by
  simp [settle, settleAux, h.1, h.2]

/-! ## Helper lemmas about the shared mission-update block -/

theorem missionUpdate_none {s : EngineState} {mid : Nat}
    (hf : s.missions.find? (fun m => m.id == mid) = none) :
    missionUpdate mid s = s := by
  simp only [missionUpdate, hf]

theorem missionUpdate_completed {s : EngineState} {mid : Nat} {m0 : Mission}
    (hf : s.missions.find? (fun m => m.id == mid) = some m0)
    (hc : m0.completed = true) :
    missionUpdate mid s = s := by
  simp only [missionUpdate, hf, hc, if_true]

/-- With pairwise-distinct mission ids, the matching missions that cross their
total while uncompleted are exactly the found mission, when it crosses. -/
theorem fired_filter {l : List Mission} {mid : Nat} {m0 : Mission}
    (hnd : (l.map (fun m => m.id)).Nodup)
    (hf : l.find? (fun m => m.id == mid) = some m0)
    (hc : m0.completed = false) :
    l.filter (fun m => m.id == mid && (decide (m.progress + 1 ≥ m.total) && !m.completed)) =
      if m0.progress + 1 ≥ m0.total then [m0] else [] := by
  induction l with
  | nil => simp at hf
  | cons m rest ih =>
    simp only [List.map_cons, List.nodup_cons] at hnd
    by_cases hm : (m.id == mid) = true
    · rw [List.find?_cons_of_pos (p := fun m => m.id == mid) rest hm] at hf
      injection hf with hf
      subst hf
      have hrest : ∀ r ∈ rest,
          ¬ (r.id == mid && (decide (r.progress + 1 ≥ r.total) && !r.completed)) = true := by
        intro r hr hcond
        rw [Bool.and_eq_true] at hcond
        have h2 : r.id = mid := by simpa using hcond.1
        have h1 : m.id = mid := by simpa using hm
        exact hnd.1 (List.mem_map.mpr ⟨r, hr, by rw [h2, h1]⟩)
      rw [List.filter_cons, List.filter_eq_nil_iff.mpr hrest]
      by_cases hcr : m.progress + 1 ≥ m.total
      · rw [if_pos hcr, if_pos (by simp [hm, hc, hcr])]
      · rw [if_neg hcr, if_neg (by simp [hm, hc, hcr])]
    · rw [List.find?_cons_of_neg (p := fun m => m.id == mid) rest hm] at hf
      rw [List.filter_cons, if_neg (by simp [hm])]
      exact ih hnd.2 hf

/-- Characterization of the mission-update block on an uncompleted found
mission, for states with pairwise-distinct mission ids: the matching mission
is incremented and marked completed exactly when it reaches its total, and in
that case — only — its reward is granted and one completion notification is
appended. -/
theorem missionUpdate_spec {s : EngineState} {mid : Nat} {m0 : Mission}
    (hnd : (s.missions.map (fun m => m.id)).Nodup)
    (hf : s.missions.find? (fun m => m.id == mid) = some m0)
    (hc : m0.completed = false) :
    missionUpdate mid s =
      { s with
        missions := s.missions.map (fun m => if m.id == mid then updateMission m else m),
        points := s.points + (if m0.progress + 1 ≥ m0.total then m0.reward else 0),
        notifications :=
          (if m0.progress + 1 ≥ m0.total then [NotifKind.missionComplete] else []) ++
            s.notifications } := by
  simp only [missionUpdate, hf, hc, Bool.false_eq_true, if_false]
  rw [fired_filter hnd hf hc]
  by_cases hcr : m0.progress + 1 ≥ m0.total
  · simp [hcr]
  · simp [hcr]

theorem missionUpdate_frame (mid : Nat) (s : EngineState) :
    (missionUpdate mid s).hotspots = s.hotspots ∧ (missionUpdate mid s).monsters = s.monsters ∧
      (missionUpdate mid s).badges = s.badges ∧ (missionUpdate mid s).events = s.events ∧
      (missionUpdate mid s).level = s.level ∧ s.points ≤ (missionUpdate mid s).points := by
  simp only [missionUpdate]
  split
  · exact ⟨rfl, rfl, rfl, rfl, rfl, Nat.le_refl _⟩
  · split
    · exact ⟨rfl, rfl, rfl, rfl, rfl, Nat.le_refl _⟩
    · exact ⟨rfl, rfl, rfl, rfl, rfl, Nat.le_add_right _ _⟩

theorem missionUpdate_notifications (mid : Nat) (s : EngineState) :
    ∃ k, (missionUpdate mid s).notifications =
      List.replicate k .missionComplete ++ s.notifications := by
  simp only [missionUpdate]
  split
  · exact ⟨0, rfl⟩
  · split
    · exact ⟨0, rfl⟩
    · exact ⟨_, rfl⟩

theorem missionUpdate_ids (mid : Nat) (s : EngineState) :
    (missionUpdate mid s).missions.map (fun m => m.id) = s.missions.map (fun m => m.id) := by
  simp only [missionUpdate]
  split
  · rfl
  · split
    · rfl
    · show (List.map _ _).map _ = _
      rw [List.map_map]
      apply List.map_congr_left
      intro m _
      by_cases hm : m.id = mid <;> simp [hm, updateMission]

/-! ## The mission and hotspot invariants -/

theorem missionInv_congr {s t : EngineState} (h : s.missions = t.missions) :
    MissionInv s → MissionInv t := by
  unfold MissionInv
  rw [h]
  exact id

theorem missionUpdate_inv (mid : Nat) {s : EngineState} (h : MissionInv s) :
    MissionInv (missionUpdate mid s) := by
  cases hf : s.missions.find? (fun m => m.id == mid) with
  | none => rw [missionUpdate_none hf]; exact h
  | some m0 =>
    by_cases hc : m0.completed = true
    · rw [missionUpdate_completed hf hc]; exact h
    · have hc' : m0.completed = false := eq_false_of_ne_true hc
      rw [missionUpdate_spec h.1 hf hc']
      constructor
      · show ((s.missions.map _).map _).Nodup
        rw [List.map_map]
        have : s.missions.map ((fun m => m.id) ∘ fun m => if m.id == mid then updateMission m else m) =
            s.missions.map (fun m => m.id) := by
          apply List.map_congr_left
          intro m _
          by_cases hm : m.id = mid <;> simp [hm, updateMission]
        rw [this]
        exact h.1
      · intro m' hm'
        rw [show ({ s with
            missions := s.missions.map (fun m => if m.id == mid then updateMission m else m),
            points := _, notifications := _ } : EngineState).missions =
          s.missions.map (fun m => if m.id == mid then updateMission m else m) from rfl,
          List.mem_map] at hm'
        obtain ⟨m, hm, rfl⟩ := hm'
        by_cases hmid : (m.id == mid) = true
        · have hmem0 := List.mem_of_find?_eq_some hf
          have hid0 : (m0.id == mid) = true := List.find?_some (p := fun m : Mission => m.id == mid) hf
          have heq : m = m0 := by
            apply List.inj_on_of_nodup_map h.1 hm hmem0
            have h1 : m.id = mid := by simpa using hmid
            have h2 : m0.id = mid := by simpa using hid0
            rw [h1, h2]
          subst heq
          obtain ⟨hcomp, hle⟩ := h.2 m hm
          rw [if_pos hmid]
          refine ⟨rfl, ?_⟩
          rw [hc'] at hcomp
          have : ¬ m.progress ≥ m.total := by
            intro hge
            simp [hge] at hcomp
          simp only [updateMission]
          omega
        · rw [if_neg hmid]
          exact h.2 m hm

/-! ## Per-operation lemmas -/

theorem missionUpdate_points_ex (mid : Nat) (s : EngineState) :
    ∃ d, (missionUpdate mid s).points = s.points + d := by
  simp only [missionUpdate]
  split
  · exact ⟨0, rfl⟩
  · split
    · exact ⟨0, rfl⟩
    · exact ⟨_, rfl⟩

theorem captureMonster_monsters (i : Nat) (s : EngineState) :
    (captureMonster i s).monsters =
      s.monsters.map (fun m => if m.id == i then { m with captured := true } else m) := by
  cases hf : s.monsters.find? (fun m => m.id == i) with
  | none => simp only [captureMonster, hf]
  | some cm =>
    simp only [captureMonster, hf]
    by_cases hp : cm.plastic = true
    · simp only [hp, if_true]
      rw [(missionUpdate_frame 1 _).2.1]
      rfl
    · rw [if_neg hp, if_neg hp]

theorem captureMonster_not_found {i : Nat} {s : EngineState}
    (h : ∀ m ∈ s.monsters, (m.id == i) = false) :
    captureMonster i s = s := by
  have hf : s.monsters.find? (fun m => m.id == i) = none :=
    List.find?_eq_none.mpr (fun m hm => by simp [h m hm])
  simp only [captureMonster, hf]
  have hmap : s.monsters.map (fun m => if m.id == i then { m with captured := true } else m) =
      s.monsters :=
    map_id_of (fun m hm => by rw [h m hm]; rfl)
  rw [hmap]

theorem captureMonster_found_points {i : Nat} {s : EngineState} {cm : Monster}
    (hf : s.monsters.find? (fun m => m.id == i) = some cm)
    (hp : cm.plastic = false) :
    (captureMonster i s).points = s.points + cm.points ∧
      (captureMonster i s).notifications = .capture :: s.notifications := by
  constructor
  · simp only [captureMonster, hf, hp, Bool.false_eq_true, if_false]
  · simp only [captureMonster, hf, hp, Bool.false_eq_true, if_false]

/-- Every capture call that finds its monster — plastic or not, captured or
not — adds the monster's pointValue (plus the mission reward when the plastic
mission crosses) and prepends one capture notification (below any
mission-completion notifications). -/
theorem captureMonster_found_points_general {i : Nat} {s : EngineState} {cm : Monster}
    (hf : s.monsters.find? (fun m => m.id == i) = some cm) :
    ∃ d k, (captureMonster i s).points = s.points + cm.points + d ∧
      (captureMonster i s).notifications =
        List.replicate k .missionComplete ++ .capture :: s.notifications := by
  by_cases hp : cm.plastic = true
  · obtain ⟨d, hd⟩ := missionUpdate_points_ex 1 (badgeIncrement 1
      { s with
        monsters := s.monsters.map (fun m => if m.id == i then { m with captured := true } else m),
        points := s.points + cm.points,
        notifications := .capture :: s.notifications })
    obtain ⟨k, hk⟩ := missionUpdate_notifications 1 (badgeIncrement 1
      { s with
        monsters := s.monsters.map (fun m => if m.id == i then { m with captured := true } else m),
        points := s.points + cm.points,
        notifications := .capture :: s.notifications })
    refine ⟨d, k, ?_, ?_⟩
    · simp only [captureMonster, hf, hp, if_true]
      rw [hd]
      rfl
    · simp only [captureMonster, hf, hp, if_true]
      rw [hk]
      rfl
  · have h := captureMonster_found_points hf (eq_false_of_ne_true hp)
    exact ⟨0, 0, by rw [h.1]; rfl, by rw [h.2]; rfl⟩

theorem captureMonster_hotspots (i : Nat) (s : EngineState) :
    (captureMonster i s).hotspots = s.hotspots := by
  cases hf : s.monsters.find? (fun m => m.id == i) with
  | none => simp only [captureMonster, hf]
  | some cm =>
    simp only [captureMonster, hf]
    by_cases hp : cm.plastic = true
    · simp only [hp, if_true]
      rw [(missionUpdate_frame 1 _).1]
      rfl
    · rw [if_neg hp, if_neg hp]

theorem captureMonster_points_mono (i : Nat) (s : EngineState) :
    s.points ≤ (captureMonster i s).points := by
  cases hf : s.monsters.find? (fun m => m.id == i) with
  | none => simp only [captureMonster, hf]; exact Nat.le_refl _
  | some cm =>
    simp only [captureMonster, hf]
    by_cases hp : cm.plastic = true
    · simp only [hp, if_true]
      refine Nat.le_trans ?_ ((missionUpdate_frame 1 _).2.2.2.2.2)
      exact Nat.le_add_right s.points cm.points
    · rw [if_neg hp, if_neg hp]
      exact Nat.le_add_right _ _

theorem captureMonster_missionInv (i : Nat) {s : EngineState} (h : MissionInv s) :
    MissionInv (captureMonster i s) := by
  cases hf : s.monsters.find? (fun m => m.id == i) with
  | none => simp only [captureMonster, hf]; exact missionInv_congr rfl h
  | some cm =>
    simp only [captureMonster, hf]
    by_cases hp : cm.plastic = true
    · simp only [hp, if_true]
      exact missionUpdate_inv 1 (missionInv_congr rfl h)
    · rw [if_neg hp, if_neg hp]
      exact missionInv_congr rfl h

theorem report_snd (near : Hotspot → Bool) (nid : Nat) (s : EngineState) :
    (reportIllegalDumping near nid s).2 = true := rfl

theorem report_hotspots (near : Hotspot → Bool) (nid : Nat) (s : EngineState) :
    (reportIllegalDumping near nid s).1.hotspots =
      match s.hotspots.find? near with
      | some ex => s.hotspots.map (fun spot =>
          if spot.id == ex.id then
            { spot with reportCount := spot.reportCount + 1,
                        level := severityOf (spot.reportCount + 1) }
          else spot)
      | none => s.hotspots ++ [{ id := nid, level := .low, reportCount := 1 }] := by
  cases hf : s.hotspots.find? near with
  | some ex =>
    simp only [reportIllegalDumping, hf]
    exact (missionUpdate_frame 2 _).1
  | none =>
    simp only [reportIllegalDumping, hf]
    exact (missionUpdate_frame 2 _).1

theorem report_badges (near : Hotspot → Bool) (nid : Nat) (s : EngineState) :
    (reportIllegalDumping near nid s).1.badges =
      s.badges.map (fun b => if b.id == 2 then { b with progress := b.progress + 1 } else b) := by
  cases hf : s.hotspots.find? near with
  | some ex =>
    simp only [reportIllegalDumping, hf]
    show (missionUpdate 2 _).badges.map _ = _
    rw [(missionUpdate_frame 2 _).2.2.1]
  | none =>
    simp only [reportIllegalDumping, hf]
    show (missionUpdate 2 _).badges.map _ = _
    rw [(missionUpdate_frame 2 _).2.2.1]

theorem report_monsters (near : Hotspot → Bool) (nid : Nat) (s : EngineState) :
    (reportIllegalDumping near nid s).1.monsters = s.monsters := by
  cases hf : s.hotspots.find? near with
  | some ex =>
    simp only [reportIllegalDumping, hf]
    exact (missionUpdate_frame 2 _).2.1
  | none =>
    simp only [reportIllegalDumping, hf]
    exact (missionUpdate_frame 2 _).2.1

theorem missionUpdate_hotspots_comm (mid : Nat) (s : EngineState) (hs : List Hotspot) :
    missionUpdate mid { s with hotspots := hs } =
      { missionUpdate mid s with hotspots := hs } := by
  simp only [missionUpdate]
  cases hf : s.missions.find? (fun m => m.id == mid) with
  | none => simp only [hf]
  | some m0 =>
    by_cases hc : m0.completed = true
    · simp only [hf, hc, if_true]
    · have hc' : m0.completed = false := eq_false_of_ne_true hc
      simp only [hf, hc', Bool.false_eq_true, if_false]

theorem report_missions_completed {near : Hotspot → Bool} {nid : Nat} {s : EngineState}
    {m0 : Mission} (hf2 : s.missions.find? (fun m => m.id == 2) = some m0)
    (hc : m0.completed = true) :
    (reportIllegalDumping near nid s).1.missions = s.missions := by
  cases hf : s.hotspots.find? near with
  | some ex =>
    simp only [reportIllegalDumping, hf]
    rw [missionUpdate_hotspots_comm]
    show (missionUpdate 2 s).missions = _
    rw [missionUpdate_completed hf2 hc]
  | none =>
    simp only [reportIllegalDumping, hf]
    rw [missionUpdate_hotspots_comm]
    show (missionUpdate 2 s).missions = _
    rw [missionUpdate_completed hf2 hc]

theorem report_missions_update {near : Hotspot → Bool} {nid : Nat} {s : EngineState}
    {m0 : Mission} (hnd : (s.missions.map (fun m => m.id)).Nodup)
    (hf2 : s.missions.find? (fun m => m.id == 2) = some m0)
    (hc : m0.completed = false) :
    (reportIllegalDumping near nid s).1.missions =
      s.missions.map (fun m => if m.id == 2 then updateMission m else m) := by
  cases hf : s.hotspots.find? near with
  | some ex =>
    simp only [reportIllegalDumping, hf]
    rw [missionUpdate_hotspots_comm]
    show (missionUpdate 2 s).missions = _
    rw [missionUpdate_spec hnd hf2 hc]
  | none =>
    simp only [reportIllegalDumping, hf]
    rw [missionUpdate_hotspots_comm]
    show (missionUpdate 2 s).missions = _
    rw [missionUpdate_spec hnd hf2 hc]

theorem report_points_ex (near : Hotspot → Bool) (nid : Nat) (s : EngineState) :
    ∃ d, (reportIllegalDumping near nid s).1.points = s.points + d + 50 := by
  obtain ⟨d, hd⟩ := missionUpdate_points_ex 2 s
  refine ⟨d, ?_⟩
  cases hf : s.hotspots.find? near with
  | some ex =>
    simp only [reportIllegalDumping, hf]
    rw [missionUpdate_hotspots_comm]
    show (missionUpdate 2 s).points + 50 = s.points + d + 50
    rw [hd]
  | none =>
    simp only [reportIllegalDumping, hf]
    rw [missionUpdate_hotspots_comm]
    show (missionUpdate 2 s).points + 50 = s.points + d + 50
    rw [hd]

theorem report_notifications_ex (near : Hotspot → Bool) (nid : Nat) (s : EngineState) :
    ∃ k, (reportIllegalDumping near nid s).1.notifications =
      .report :: (List.replicate k .missionComplete ++ s.notifications) := by
  obtain ⟨k, hk⟩ := missionUpdate_notifications 2 s
  refine ⟨k, ?_⟩
  cases hf : s.hotspots.find? near with
  | some ex =>
    simp only [reportIllegalDumping, hf]
    rw [missionUpdate_hotspots_comm]
    show NotifKind.report :: (missionUpdate 2 s).notifications =
      .report :: (List.replicate k .missionComplete ++ s.notifications)
    rw [hk]
  | none =>
    simp only [reportIllegalDumping, hf]
    rw [missionUpdate_hotspots_comm]
    show NotifKind.report :: (missionUpdate 2 s).notifications =
      .report :: (List.replicate k .missionComplete ++ s.notifications)
    rw [hk]

theorem report_missionInv (near : Hotspot → Bool) (nid : Nat) {s : EngineState}
    (h : MissionInv s) : MissionInv (reportIllegalDumping near nid s).1 := by
  cases hf : s.hotspots.find? near with
  | some ex =>
    simp only [reportIllegalDumping, hf]
    exact missionInv_congr rfl (missionUpdate_inv 2 (missionInv_congr rfl h))
  | none =>
    simp only [reportIllegalDumping, hf]
    exact missionInv_congr rfl (missionUpdate_inv 2 (missionInv_congr rfl h))

theorem joinEvent_frame (i : Nat) (s : EngineState) :
    (joinEvent i s).hotspots = s.hotspots ∧ (joinEvent i s).monsters = s.monsters ∧
      s.points ≤ (joinEvent i s).points := by
  cases hf : s.events.find? (fun e => e.id == i) with
  | none =>
    refine ⟨?_, ?_, ?_⟩
    · simp only [joinEvent, hf]
    · simp only [joinEvent, hf]
    · simp only [joinEvent, hf]
      exact Nat.le_refl _
  | some ev =>
    simp only [joinEvent, hf]
    have h := missionUpdate_frame 4
      { s with
        events := s.events.map
          (fun e => if e.id == i then { e with participants := e.participants + 1 } else e),
        notifications := .joinEvent :: s.notifications }
    exact ⟨h.1, h.2.1, h.2.2.2.2.2⟩

theorem joinEvent_missionInv (i : Nat) {s : EngineState} (h : MissionInv s) :
    MissionInv (joinEvent i s) := by
  cases hf : s.events.find? (fun e => e.id == i) with
  | none => simp only [joinEvent, hf]; exact h
  | some ev =>
    simp only [joinEvent, hf]
    exact missionInv_congr rfl (missionUpdate_inv 4 (missionInv_congr rfl h))

theorem inviteFriend_frame (s : EngineState) :
    (inviteFriend s).1.hotspots = s.hotspots ∧ (inviteFriend s).1.monsters = s.monsters ∧
      s.points ≤ (inviteFriend s).1.points := by
  refine ⟨?_, ?_, ?_⟩
  · show (missionUpdate 3 s).hotspots = _
    exact (missionUpdate_frame 3 s).1
  · show (missionUpdate 3 s).monsters = _
    exact (missionUpdate_frame 3 s).2.1
  · show s.points ≤ (missionUpdate 3 s).points
    exact (missionUpdate_frame 3 s).2.2.2.2.2

theorem inviteFriend_missionInv {s : EngineState} (h : MissionInv s) :
    MissionInv (inviteFriend s).1 :=
  missionInv_congr rfl (missionUpdate_inv 3 h)

theorem rawStep_points_mono (op : Op) (s : EngineState) :
    s.points ≤ (rawStep op s).points := by
  cases op with
  | capture i => exact captureMonster_points_mono i s
  | reportDump near nid =>
    obtain ⟨d, hd⟩ := report_points_ex near nid s
    rw [show rawStep (.reportDump near nid) s = (reportIllegalDumping near nid s).1 from rfl, hd]
    omega
  | joinEv i => exact (joinEvent_frame i s).2.2
  | invite => exact (inviteFriend_frame s).2.2

theorem rawStep_missionInv (op : Op) {s : EngineState} (h : MissionInv s) :
    MissionInv (rawStep op s) := by
  cases op with
  | capture i => exact captureMonster_missionInv i h
  | reportDump near nid => exact report_missionInv near nid h
  | joinEv i => exact joinEvent_missionInv i h
  | invite => exact inviteFriend_missionInv h

/-! ## Step-level lemmas -/

theorem step_level (op : Op) (s : EngineState) :
    (step op s).level = (step op s).points / 100 + 1 :=
  (settle_fix (rawStep op s)).1

theorem step_points_mono (op : Op) (s : EngineState) :
    s.points ≤ (step op s).points :=
  Nat.le_trans (rawStep_points_mono op s) ((settle_frame (rawStep op s)).2.2.2.2)

theorem step_missionInv (op : Op) {s : EngineState} (h : MissionInv s) :
    MissionInv (step op s) :=
  missionInv_congr ((settle_frame (rawStep op s)).2.2.1).symm (rawStep_missionInv op h)

theorem hotspotInv_congr {s t : EngineState} (h : s.hotspots = t.hotspots) :
    HotspotInv s → HotspotInv t := by
  unfold HotspotInv
  rw [h]
  exact id

theorem report_hotspotInv (near : Hotspot → Bool) (nid : Nat) {s : EngineState}
    (h : HotspotInv s) : HotspotInv (reportIllegalDumping near nid s).1 := by
  intro x hx
  rw [report_hotspots] at hx
  cases hf : s.hotspots.find? near with
  | some ex =>
    rw [hf] at hx
    rw [List.mem_map] at hx
    obtain ⟨spot, hspot, rfl⟩ := hx
    by_cases hid : spot.id = ex.id
    · simp [hid]
    · rw [if_neg (by simp [hid])]
      exact h spot hspot
  | none =>
    rw [hf] at hx
    rw [List.mem_append] at hx
    cases hx with
    | inl hx => exact h x hx
    | inr hx =>
      rw [List.mem_singleton] at hx
      subst hx
      rfl

theorem rawStep_hotspotInv (op : Op) {s : EngineState} (h : HotspotInv s) :
    HotspotInv (rawStep op s) := by
  cases op with
  | capture i => exact hotspotInv_congr (captureMonster_hotspots i s).symm h
  | reportDump near nid => exact report_hotspotInv near nid h
  | joinEv i => exact hotspotInv_congr (joinEvent_frame i s).1.symm h
  | invite => exact hotspotInv_congr (inviteFriend_frame s).1.symm h

theorem step_hotspotInv (op : Op) {s : EngineState} (h : HotspotInv s) :
    HotspotInv (step op s) :=
  hotspotInv_congr ((settle_frame (rawStep op s)).1).symm (rawStep_hotspotInv op h)

theorem step_hotspot_ids (op : Op) (s : EngineState) :
    ∃ rest, (step op s).hotspots.map (fun h => h.id) =
      s.hotspots.map (fun h => h.id) ++ rest := by
  rw [show (step op s).hotspots = (rawStep op s).hotspots from (settle_frame (rawStep op s)).1]
  cases op with
  | capture i =>
    exact ⟨[], by
      rw [show rawStep (.capture i) s = captureMonster i s from rfl, captureMonster_hotspots,
        List.append_nil]⟩
  | reportDump near nid =>
    rw [show rawStep (.reportDump near nid) s = (reportIllegalDumping near nid s).1 from rfl,
      report_hotspots]
    cases hf : s.hotspots.find? near with
    | some ex =>
      refine ⟨[], ?_⟩
      rw [List.append_nil, List.map_map]
      apply List.map_congr_left
      intro spot _
      by_cases hid : spot.id = ex.id <;> simp [hid]
    | none => exact ⟨[nid], by rw [List.map_append]; rfl⟩
  | joinEv i =>
    exact ⟨[], by
      rw [show rawStep (.joinEv i) s = joinEvent i s from rfl, (joinEvent_frame i s).1,
        List.append_nil]⟩
  | invite =>
    exact ⟨[], by
      rw [show rawStep .invite s = (inviteFriend s).1 from rfl, (inviteFriend_frame s).1,
        List.append_nil]⟩

theorem step_capture_monsters (i : Nat) (s : EngineState) :
    (step (.capture i) s).monsters =
      s.monsters.map (fun m => if m.id == i then { m with captured := true } else m) :=
  ((settle_frame (rawStep (.capture i) s)).2.1).trans (captureMonster_monsters i s)

theorem step_capture_noop {i : Nat} {s : EngineState}
    (h : ∀ m ∈ s.monsters, (m.id == i) = false) (hs : Settled s) :
    step (.capture i) s = s := by
  show settle (captureMonster i s) = s
  rw [captureMonster_not_found h]
  exact settle_of_settled hs

/-! ## The haversine distance -/

theorem hav_form_mem (u v w : ℝ) :
    0 ≤ Real.sin ((v - u) / 2) * Real.sin ((v - u) / 2) +
        Real.cos u * Real.cos v * Real.sin w * Real.sin w ∧
      Real.sin ((v - u) / 2) * Real.sin ((v - u) / 2) +
        Real.cos u * Real.cos v * Real.sin w * Real.sin w ≤ 1 := by
  have h2x : 2 * ((v - u) / 2) = v - u := by ring
  have hsq : Real.sin ((v - u) / 2) * Real.sin ((v - u) / 2) =
      (1 - Real.cos (v - u)) / 2 := by
    have h := Real.sin_sq_eq_half_sub ((v - u) / 2)
    rw [h2x] at h
    rw [← pow_two, h]
    ring
  have hC1 := Real.neg_one_le_cos (v - u)
  have hC2 := Real.cos_le_one (v - u)
  have hD1 := Real.neg_one_le_cos (v + u)
  have hD2 := Real.cos_le_one (v + u)
  have ht0 : (0 : ℝ) ≤ Real.sin w * Real.sin w := mul_self_nonneg _
  have ht1 : Real.sin w * Real.sin w ≤ 1 := by
    have h := Real.sin_sq_le_one w
    rwa [pow_two] at h
  have hsub : Real.cos (v - u) = Real.cos v * Real.cos u + Real.sin v * Real.sin u :=
    Real.cos_sub v u
  have hadd : Real.cos (v + u) = Real.cos v * Real.cos u - Real.sin v * Real.sin u :=
    Real.cos_add v u
  have hinterp : Real.sin ((v - u) / 2) * Real.sin ((v - u) / 2) +
      Real.cos u * Real.cos v * Real.sin w * Real.sin w =
      (1 - Real.sin w * Real.sin w) * ((1 - Real.cos (v - u)) / 2) +
        (Real.sin w * Real.sin w) * ((1 + Real.cos (v + u)) / 2) := by
    rw [hsq, hsub, hadd]
    ring
  constructor
  · rw [hinterp]
    have g1 : 0 ≤ (1 - Real.sin w * Real.sin w) * ((1 - Real.cos (v - u)) / 2) :=
      mul_nonneg (by linarith) (by linarith)
    have g2 : 0 ≤ (Real.sin w * Real.sin w) * ((1 + Real.cos (v + u)) / 2) :=
      mul_nonneg ht0 (by linarith)
    linarith
  · rw [hinterp]
    have g1 : (1 - Real.sin w * Real.sin w) * ((1 - Real.cos (v - u)) / 2) ≤
        (1 - Real.sin w * Real.sin w) * 1 :=
      mul_le_mul_of_nonneg_left (by linarith) (by linarith)
    have g2 : (Real.sin w * Real.sin w) * ((1 + Real.cos (v + u)) / 2) ≤
        (Real.sin w * Real.sin w) * 1 :=
      mul_le_mul_of_nonneg_left (by linarith) ht0
    linarith

theorem havA_mem (lat1 lng1 lat2 lng2 : ℝ) :
    0 ≤ havA lat1 lng1 lat2 lng2 ∧ havA lat1 lng1 lat2 lng2 ≤ 1 := by
  have h := hav_form_mem (deg2rad lat1) (deg2rad lat2) (deg2rad (lng2 - lng1) / 2)
  have harg : deg2rad (lat2 - lat1) / 2 = (deg2rad lat2 - deg2rad lat1) / 2 := by
    unfold deg2rad
    ring
  unfold havA
  rw [harg]
  exact h

theorem atan2_sqrt_eq_arcsin {a : ℝ} (h0 : 0 ≤ a) (h1 : a ≤ 1) :
    atan2 (Real.sqrt a) (Real.sqrt (1 - a)) = Real.arcsin (Real.sqrt a) := by
  rcases lt_or_eq_of_le h1 with hlt | heq
  · have hx : 0 < Real.sqrt (1 - a) := Real.sqrt_pos.mpr (by linarith)
    have hmem : Real.sqrt a ∈ Set.Ioo (-1 : ℝ) 1 := by
      constructor
      · have := Real.sqrt_nonneg a
        linarith
      · have h := Real.sqrt_lt_sqrt h0 hlt
        rwa [Real.sqrt_one] at h
    unfold atan2
    rw [if_pos hx, Real.arcsin_eq_arctan hmem, Real.sq_sqrt h0]
  · subst heq
    have hz : (1 : ℝ) - 1 = 0 := by norm_num
    rw [hz, Real.sqrt_zero, Real.sqrt_one]
    unfold atan2
    rw [if_neg (lt_irrefl 0), if_neg (lt_irrefl 0), if_pos one_pos, Real.arcsin_one]

theorem calculateDistance_eq_haversine (lat1 lng1 lat2 lng2 : ℝ) :
    calculateDistance lat1 lng1 lat2 lng2 = haversineDistance lat1 lng1 lat2 lng2 := by
  obtain ⟨h0, h1⟩ := havA_mem lat1 lng1 lat2 lng2
  show 6371 * (2 * atan2 (Real.sqrt (havA lat1 lng1 lat2 lng2))
      (Real.sqrt (1 - havA lat1 lng1 lat2 lng2))) = _
  rw [atan2_sqrt_eq_arcsin h0 h1]
  have hinner : havA lat1 lng1 lat2 lng2 =
      Real.sin ((deg2rad lat2 - deg2rad lat1) / 2) ^ 2 +
        Real.cos (deg2rad lat1) * Real.cos (deg2rad lat2) *
          Real.sin ((deg2rad lng2 - deg2rad lng1) / 2) ^ 2 := by
    unfold havA deg2rad
    ring_nf
  unfold haversineDistance
  rw [hinner]
  ring

/-! ## The environment score -/

theorem severity_fold_aux (l : List Hotspot) (c : ℚ) :
    l.foldl (fun total spot =>
        if spot.level = .high then total + 3
        else if spot.level = .medium then total + 2
        else total + 1) c =
      c + 3 * (l.countP (fun h => h.level == Severity.high) : ℚ) +
        2 * (l.countP (fun h => h.level == Severity.medium) : ℚ) +
        (l.countP (fun h => h.level == Severity.low) : ℚ) := by
  induction l generalizing c with
  | nil => simp
  | cons h t ih =>
    rw [List.foldl_cons, ih]
    cases hl : h.level with
    | high =>
      simp [List.countP_cons, hl]
      ring
    | medium =>
      simp [List.countP_cons, hl]
      ring
    | low =>
      simp [List.countP_cons, hl]
      ring

/-! ## The claims -/

/-- C1, corrected, counterexample: with a single non-plastic monster of id 1
worth 50 points, the first `captureMonster 1` leaves the monster captured and
the points at 50, and a second `captureMonster 1` on the already-captured
monster is not a no-op: it grants the 50 points again (100 total), refuting
"calling captureMonster on an already-captured monster is a safe no-op that
leaves points unchanged" and "its pointValue is added to the user's points
exactly once in total". -/
theorem C1_counterexample :
    (step (.capture 1) oneMonsterState).monsters = [⟨1, false, 50, true⟩] ∧
      (step (.capture 1) oneMonsterState).points = 50 ∧
      (step (.capture 1) (step (.capture 1) oneMonsterState)).points = 100 := by
  decide

/-- C1, amended: a monster's `captured` flag transitions false→true at most
once (capture only maps `captured := true` over the matching monsters, so a
captured monster never reverts); calling `captureMonster` on a non-existent
monster id is a safe no-op on a quiescent state, and never raises (the
operation is total); however every capture call that finds its monster —
plastic or not, already captured or not — adds the monster's pointValue
(plus any mission reward the plastic mission's crossing grants) and appends
a capture notification again, not exactly once in total; for a non-plastic
monster the grant is exactly the pointValue and exactly one capture
notification. -/
theorem C1_capture_amended :
    (∀ (i : Nat) (s : EngineState),
        (step (.capture i) s).monsters =
          s.monsters.map (fun m => if m.id == i then { m with captured := true } else m)) ∧
      (∀ (i : Nat) (s : EngineState),
        (∀ m ∈ s.monsters, (m.id == i) = false) → Settled s → step (.capture i) s = s) ∧
      (∀ (i : Nat) (s : EngineState) (cm : Monster),
        s.monsters.find? (fun m => m.id == i) = some cm →
          ∃ d k, (captureMonster i s).points = s.points + cm.points + d ∧
            (captureMonster i s).notifications =
              List.replicate k .missionComplete ++ .capture :: s.notifications) ∧
      (∀ (i : Nat) (s : EngineState) (cm : Monster),
        s.monsters.find? (fun m => m.id == i) = some cm → cm.plastic = false →
          (captureMonster i s).points = s.points + cm.points ∧
          (captureMonster i s).notifications = .capture :: s.notifications) :=
  ⟨step_capture_monsters, fun _ _ h hs => step_capture_noop h hs,
    fun _ _ _ hf => captureMonster_found_points_general hf,
    fun _ _ _ hf hp => captureMonster_found_points hf hp⟩

/-- C1 witness: capturing a non-existent id on the settled empty state is a
no-op; capturing the uncaptured plastic monster of `plasticCrossState` adds
at least its 50 points; and capturing the non-plastic monster of
`oneMonsterState` grants exactly its 50 points. -/
theorem C1_capture_amended_witness :
    (Settled settledEmptyState ∧ step (.capture 1) settledEmptyState = settledEmptyState) ∧
      plasticCrossState.points + 50 ≤ (captureMonster 1 plasticCrossState).points ∧
      (captureMonster 1 oneMonsterState).points = 50 := by
  refine ⟨⟨by decide, C1_capture_amended.2.1 1 settledEmptyState (by decide) (by decide)⟩,
    ?_, ?_⟩
  · obtain ⟨d, k, hd, _⟩ :=
      C1_capture_amended.2.2.1 1 plasticCrossState ⟨1, true, 50, false⟩ (by decide)
    have h50 : (⟨1, true, 50, false⟩ : Monster).points = 50 := rfl
    rw [h50] at hd
    rw [hd]
    omega
  · exact
      (C1_capture_amended.2.2.2 1 oneMonsterState ⟨1, false, 50, false⟩ (by decide) (by decide)).1

/-- C2: the crossing check.  For the shared mission-update block: on a found,
not-yet-completed mission (with pairwise-distinct mission ids) the mission's
progress is incremented and it is marked completed exactly when progress
reaches the total, in which case — and only then — its `rewardPoints` are
granted and one completion notification is appended; a found, already
completed mission is left entirely untouched.  For badges: the badge effect
unlocks every badge whose progress has reached its total and that is not yet
unlocked, granting a flat 100 points and one notification per newly unlocked
badge — an already-unlocked badge grants nothing; the effect is idempotent,
so re-crossing grants no further reward or notification. -/
theorem C2_crossing_check :
    (∀ (s : EngineState) (mid : Nat) (m0 : Mission),
        (s.missions.map (fun m => m.id)).Nodup →
        s.missions.find? (fun m => m.id == mid) = some m0 →
        m0.completed = false →
        missionUpdate mid s =
          { s with
            missions := s.missions.map (fun m => if m.id == mid then updateMission m else m),
            points := s.points + (if m0.progress + 1 ≥ m0.total then m0.reward else 0),
            notifications :=
              (if m0.progress + 1 ≥ m0.total then [NotifKind.missionComplete] else []) ++
                s.notifications }) ∧
      (∀ (s : EngineState) (mid : Nat) (m0 : Mission),
        s.missions.find? (fun m => m.id == mid) = some m0 →
        m0.completed = true → missionUpdate mid s = s) ∧
      (∀ s : EngineState,
        badgeEffect s =
          { s with
            badges := s.badges.map
              (fun b => if unlockable b then { b with unlocked := true } else b),
            points := s.points + 100 * s.badges.countP unlockable,
            notifications :=
              List.replicate (s.badges.countP unlockable) .badgeUnlock ++ s.notifications }) ∧
      (∀ s : EngineState, badgeEffect (badgeEffect s) = badgeEffect s) :=
  ⟨fun _ _ _ hnd hf hc => missionUpdate_spec hnd hf hc,
    fun _ _ _ hf hc => missionUpdate_completed hf hc,
    badgeEffect_eq, badgeEffect_idem⟩

/-- C2 witness: the plastic mission of `crossingState` (progress 2 of 3)
crosses on its next increment, granting its 150 reward points and one
completion notification. -/
theorem C2_crossing_check_witness :
    (crossingState.missions.map (fun m => m.id)).Nodup ∧
      missionUpdate 1 crossingState =
        { crossingState with
          missions := crossingState.missions.map
            (fun m => if m.id == 1 then updateMission m else m),
          points := crossingState.points + 150,
          notifications := [NotifKind.missionComplete] ++ crossingState.notifications } := by
  refine ⟨by decide, ?_⟩
  have h := C2_crossing_check.1 crossingState 1 ⟨1, 150, false, 2, 3⟩ (by decide) (by decide)
    (by decide)
  rw [h]
  decide

/-- C3: after every engine operation (the four operations each followed by
the reactive effects settling, which includes badge unlocks and level-ups),
the user's level equals `floor(points/100) + 1`. -/
theorem C3_level_invariant :
    ∀ (op : Op) (s : EngineState), (step op s).level = (step op s).points / 100 + 1 :=
  step_level

/-- C4: whenever a points change makes the recomputed level
`floor(points/100)+1` exceed the stored level, the level effect stores the
new level, appends exactly one level-up notification, and overwrites (not
increments) the progress of badge 5 ("eco hero") with the new level, after
which the badge effect (the crossing check) runs within `settle`; in
particular capturing a 1-point monster at 99 points moves the level from 1
to 2 and sets that badge's progress to 2 (from 5 — overwritten, not
incremented). -/
theorem C4_level_up :
    (∀ s : EngineState, s.points / 100 + 1 > s.level →
        levelEffect s =
          { s with
            level := s.points / 100 + 1,
            notifications := .levelUp :: s.notifications,
            badges := s.badges.map
              (fun b => if b.id == 5 then { b with progress := s.points / 100 + 1 } else b) }) ∧
      step (.capture 1) levelUpState = levelUpExpected := by
  constructor
  · intro s h
    simp only [levelEffect]
    rw [if_pos (by omega), if_pos h]
  · decide

/-- C4 witness: the level effect applied to a state with 100 points still at
level 1 fires the level-up branch. -/
theorem C4_level_up_witness :
    preLevelUpState.points / 100 + 1 > preLevelUpState.level ∧
      levelEffect preLevelUpState =
        { preLevelUpState with
          level := 2,
          notifications := [.levelUp],
          badges := [⟨5, 2, 10, false⟩] } := by
  refine ⟨by decide, ?_⟩
  rw [C4_level_up.1 preLevelUpState (by decide)]
  decide

/-- C5, corrected, counterexample: a report made while the "report illegal
dumping" mission (id 2) is already completed still succeeds (returns `true`)
but does not increment that mission's progress (it stays at 1), refuting "on
every call … increments the progress of the 'report illegal dumping' daily
mission by 1". -/
theorem C5_counterexample :
    (reportIllegalDumping neverNear 9 completedMissionState).2 = true ∧
      (reportIllegalDumping neverNear 9 completedMissionState).1.missions =
        [⟨2, 100, true, 1, 1⟩] := by
  decide

/-- C5, amended: `reportIllegalDumping` always returns `true` (no failure
path), always awards 50 points on top of any mission reward, always
increments the progress of badge 2 ("environmental guardian") — even when
that badge is already unlocked — and always appends one report notification
(atop any completion notifications); the "report illegal dumping" mission
(id 2) is incremented, with the crossing check, only when it is not yet
completed — a completed mission is left untouched. -/
theorem C5_report_amended :
    (∀ (near : Hotspot → Bool) (nid : Nat) (s : EngineState),
        (reportIllegalDumping near nid s).2 = true) ∧
      (∀ (near : Hotspot → Bool) (nid : Nat) (s : EngineState),
        (reportIllegalDumping near nid s).1.badges =
          s.badges.map (fun b => if b.id == 2 then { b with progress := b.progress + 1 } else b)) ∧
      (∀ (near : Hotspot → Bool) (nid : Nat) (s : EngineState), ∃ d,
        (reportIllegalDumping near nid s).1.points = s.points + d + 50) ∧
      (∀ (near : Hotspot → Bool) (nid : Nat) (s : EngineState), ∃ k,
        (reportIllegalDumping near nid s).1.notifications =
          .report :: (List.replicate k .missionComplete ++ s.notifications)) ∧
      (∀ (near : Hotspot → Bool) (nid : Nat) (s : EngineState) (m0 : Mission),
        (s.missions.map (fun m => m.id)).Nodup →
        s.missions.find? (fun m => m.id == 2) = some m0 → m0.completed = false →
        (reportIllegalDumping near nid s).1.missions =
          s.missions.map (fun m => if m.id == 2 then updateMission m else m)) ∧
      (∀ (near : Hotspot → Bool) (nid : Nat) (s : EngineState) (m0 : Mission),
        s.missions.find? (fun m => m.id == 2) = some m0 → m0.completed = true →
        (reportIllegalDumping near nid s).1.missions = s.missions) :=
  ⟨report_snd, report_badges, report_points_ex, report_notifications_ex,
    fun _ _ _ _ hnd hf hc => report_missions_update hnd hf hc,
    fun _ _ _ _ hf hc => report_missions_completed hf hc⟩

/-- C5 witness: a report on a state whose mission 2 is one report from its
total increments it (crossing), and a report on a state whose mission 2 is
completed leaves the missions unchanged. -/
theorem C5_report_amended_witness :
    (reportIllegalDumping neverNear 9 reportMissionState).1.missions =
        reportMissionState.missions.map (fun m => if m.id == 2 then updateMission m else m) ∧
      (reportIllegalDumping neverNear 9 completedMissionState).1.missions =
        completedMissionState.missions :=
  ⟨C5_report_amended.2.2.2.2.1 neverNear 9 reportMissionState ⟨2, 100, false, 0, 1⟩
      (by decide) (by decide) (by decide),
    C5_report_amended.2.2.2.2.2 neverNear 9 completedMissionState ⟨2, 100, true, 1, 1⟩
      (by decide) (by decide)⟩

/-- C6: every hotspot in the store has its severity determined by its report
count (`>10 → high`, `>5 → medium`, else `low`): true of the seed data and
preserved by every engine operation; hotspots are never deleted (the stored
ids persist, in order, under every operation); a report whose proximity
oracle finds an existing hotspot increments exactly that hotspot's report
count by 1 and recomputes its severity from the table, while a report whose
oracle finds none appends a new hotspot with report count 1 and severity low;
in particular a report matching a hotspot at report count 10 moves it to 11
and flips it from medium to high. -/
theorem C6_hotspot_severity :
    HotspotInv seedState ∧
      (∀ (op : Op) (s : EngineState), HotspotInv s → HotspotInv (step op s)) ∧
      (∀ (op : Op) (s : EngineState), ∃ rest,
        (step op s).hotspots.map (fun h => h.id) = s.hotspots.map (fun h => h.id) ++ rest) ∧
      (∀ (near : Hotspot → Bool) (nid : Nat) (s : EngineState) (ex : Hotspot),
        s.hotspots.find? near = some ex →
        (reportIllegalDumping near nid s).1.hotspots = s.hotspots.map (fun spot =>
          if spot.id == ex.id then
            { spot with reportCount := spot.reportCount + 1,
                        level := severityOf (spot.reportCount + 1) }
          else spot)) ∧
      (∀ (near : Hotspot → Bool) (nid : Nat) (s : EngineState),
        s.hotspots.find? near = none →
        (reportIllegalDumping near nid s).1.hotspots =
          s.hotspots ++ [{ id := nid, level := .low, reportCount := 1 }]) ∧
      (step (.reportDump alwaysNear 0) tenReportState).hotspots = [⟨7, .high, 11⟩] := by
  refine ⟨by decide, fun op s h => step_hotspotInv op h, step_hotspot_ids, ?_, ?_, by decide⟩
  · intro near nid s ex hf
    rw [report_hotspots, hf]
  · intro near nid s hf
    rw [report_hotspots, hf]

/-- C6 witness: the severity invariant holds of the seed state and is
preserved by a report at a fresh location. -/
theorem C6_hotspot_severity_witness :
    HotspotInv seedState ∧ HotspotInv (step (.reportDump neverNear 9) seedState) :=
  ⟨by decide, C6_hotspot_severity.2.1 (.reportDump neverNear 9) seedState (by decide)⟩

/-- C7: `isMonsterNearby` is false whenever the user location is unresolved,
and for a resolved location it holds exactly when the haversine great-circle
distance (Earth radius 6371 km, textbook `2 R arcsin √a` form, proved equal
to the source's `atan2` formulation) between the user location and the
monster's coordinates is at most 0.05 km. -/
theorem C7_monster_nearby :
    (∀ monsterLat monsterLng : ℝ, ¬ isMonsterNearby none monsterLat monsterLng) ∧
      ∀ (u : Coord) (monsterLat monsterLng : ℝ),
        isMonsterNearby (some u) monsterLat monsterLng ↔
          haversineDistance u.lat u.lng monsterLat monsterLng ≤ 0.05 := by
  constructor
  · intro _ _ h
    exact h
  · intro u mlat mlng
    show calculateDistance u.lat u.lng mlat mlng ≤ 0.05 ↔ _
    rw [calculateDistance_eq_haversine]

/-- C8: the environment score is recomputed from the current state as
`round((100 − severity×5)×0.6 + captureRate×100×0.4)` where severity weighs
each hotspot 3/2/1 for high/medium/low and captureRate is the captured
fraction of monsters (0 when there are none); no clamping is applied — with
twelve high hotspots and no monsters the score is −48, outside [0, 100]
(and the seed state scores 43). -/
theorem C8_environment_score :
    (∀ s : EngineState,
        calculateEnvironmentScore s =
          round ((100 - (3 * (s.hotspots.countP (fun h => h.level == Severity.high) : ℚ) +
                2 * (s.hotspots.countP (fun h => h.level == Severity.medium) : ℚ) +
                (s.hotspots.countP (fun h => h.level == Severity.low) : ℚ)) * 5) * 0.6 +
            (if s.monsters.length > 0 then
                ((s.monsters.filter (fun m => m.captured)).length : ℚ) / (s.monsters.length : ℚ)
              else 0) * 100 * 0.4)) ∧
      calculateEnvironmentScore negScoreState = -48 ∧
      calculateEnvironmentScore negScoreState < 0 ∧
      calculateEnvironmentScore seedState = 43 := by
  refine ⟨?_, ?_, ?_, ?_⟩
  · intro s
    unfold calculateEnvironmentScore
    rw [severity_fold_aux s.hotspots 0]
    ring_nf
  · simp only [calculateEnvironmentScore, negScoreState, reduceCtorEq]
    norm_num [round_eq]
  · simp only [calculateEnvironmentScore, negScoreState, reduceCtorEq]
    norm_num [round_eq]
  · simp [calculateEnvironmentScore, seedState, seedHotspots, seedMonsters]
    norm_num [round_eq]

/-- C9: user points are monotonically non-decreasing: no engine operation
(capture, report, join, invite, each including mission rewards, badge
bonuses and level-ups applied by `settle`) ever decreases points. -/
theorem C9_points_monotone :
    ∀ (op : Op) (s : EngineState), s.points ≤ (step op s).points :=
  step_points_mono

/-- C10: the mission invariant — pairwise-distinct ids, `completed` agreeing
with `progress ≥ total`, and `progress ≤ total` — holds of the seed missions
and is preserved by every engine operation, so mission progress never
exceeds its total along any run from the seed state; badges are different:
a report on a state whose guardian badge is already unlocked at 5 of 5
pushes that badge's progress to 6, past its total. -/
theorem C10_mission_progress :
    MissionInv seedState ∧
      (∀ (op : Op) (s : EngineState), MissionInv s → MissionInv (step op s)) ∧
      (∀ s : EngineState, MissionInv s → ∀ m ∈ s.missions, m.progress ≤ m.total) ∧
      (step (.reportDump alwaysNear 0) overBadgeState).badges = [⟨2, 6, 5, true⟩] :=
  ⟨by decide, fun op _ h => step_missionInv op h, fun _ h m hm => (h.2 m hm).2, by decide⟩

/-- C10 witness: the mission invariant holds of the seed state and of the
state after capturing monster 2 from the seed state. -/
theorem C10_mission_progress_witness :
    MissionInv seedState ∧ MissionInv (step (.capture 2) seedState) :=
  ⟨by decide, C10_mission_progress.2.1 (.capture 2) seedState (by decide)⟩

end EcoQuest
